import Mathlib

/-!
Verification of the real-time QR detection and tracking pipeline of this
repository (Scanner components plus qrUtils). The decoding, gating,
smoothing, deduplication and dispatch logic of the per-frame scan loop is
embedded as executable Lean definitions; JS numbers are modelled as exact
rationals and JS strings as Lean strings (or lists of characters where
character level scanning is needed). Browser plumbing that the pipeline
only reads through (canvas contexts, the processing canvas, video
readiness) is assumed available, as it is unconditionally created at
mount.
-/

namespace QRScan

/-- Pixel coordinate pair, Scanner.tsx `{x: number, y: number}`. -/
structure Point where
  x : ℚ
  y : ℚ
deriving DecidableEq

/-- Scanner.tsx lines 165-167: linear interpolation helper. -/
def lerp (start e factor : ℚ) : ℚ :=
  start + (e - start) * factor

/-- Scanner.tsx lines 169-179: focus gate with the hardcoded 20 percent
margin. Accepts a point strictly inside the inset rectangle. -/
def isPointInFocusArea (p : Point) (videoWidth videoHeight : ℚ) : Bool :=
  let marginX := videoWidth * (1/5)
  let marginY := videoHeight * (1/5)
  p.x > marginX && p.x < videoWidth - marginX &&
    p.y > marginY && p.y < videoHeight - marginY

/-- Modelled from the spec: `FocusGate.accepts` with an explicit
`marginFraction` parameter (the source hardcodes 0.20; this
generalisation is compared with `isPointInFocusArea` at 1/5). -/
def focusGateAccepts (marginFraction : ℚ) (p : Point) (w h : ℚ) : Bool :=
  p.x > w * marginFraction && p.x < w - w * marginFraction &&
    p.y > h * marginFraction && p.y < h - h * marginFraction

/-- Scanner.tsx lines 181-192: the state effect of `drawLensCorners` on
`currentCornersRef` (drawing stripped). With fewer than 4 points the
function returns early leaving the state unchanged; with no previous
corners it snaps to the input; otherwise it blends componentwise with
factor 0.4. -/
def drawLensCorners (prev : Option (List Point)) (points : List Point) :
    Option (List Point) :=
  if points.length < 4 then prev
  else
    match prev with
    | none => some points
    | some ps =>
        some (ps.mapIdx fun i p =>
          ⟨lerp p.x (points.getD i ⟨0, 0⟩).x (2/5),
           lerp p.y (points.getD i ⟨0, 0⟩).y (2/5)⟩)

/-- Deduplication memory: Scanner.tsx lines 60-61, `lastScannedRef`
(initially null) and `lastScanTimeRef` (initially 0). -/
structure ScanMemory where
  lastScanned : Option String
  lastScanTime : Int
deriving DecidableEq

/-- Initial values of the two deduplication refs. -/
def initialMemory : ScanMemory :=
  { lastScanned := none, lastScanTime := 0 }

/-- The deduplication step, src/unnamed/part_000 lines 251-260 (inlined in
`scanFrame`): accept when the payload is new or the 2000 ms cooldown has
elapsed, updating both refs on acceptance. -/
def shouldAct (payload : String) (now : Int) (mem : ScanMemory) :
    Bool × ScanMemory :=
  let isSameCode := mem.lastScanned = some payload
  let isCooldownOver := now - mem.lastScanTime > 2000
  if !isSameCode || isCooldownOver then
    (true, { lastScanned := some payload, lastScanTime := now })
  else
    (false, mem)

/-- Runs `shouldAct` over a list of (payload, timestamp) events, returning
the list of decisions. -/
def runDedup : List (String × Int) → ScanMemory → List Bool
  | [], _ => []
  | (p, t) :: rest, mem =>
      let r := shouldAct p t mem
      r.1 :: runDedup rest r.2

/-- Result of the native BarcodeDetector, Scanner.tsx lines 17-20. -/
structure Barcode where
  rawValue : String
  cornerPoints : List Point
deriving DecidableEq

/-- Corner locations of a jsQR result. -/
structure JsLocation where
  topLeftCorner : Point
  topRightCorner : Point
  bottomRightCorner : Point
  bottomLeftCorner : Point
deriving DecidableEq

/-- Decoded jsQR result. -/
structure JsCode where
  data : String
  location : JsLocation
deriving DecidableEq

/-- Outcome of the native detector call on one tick: the detector ref may
be null (unavailable or uninitialized), the call may throw, or it returns
a list of barcodes. -/
inductive NativeOutcome
  | unavailable
  | throws
  | detects (barcodes : List Barcode)
deriving DecidableEq

/-- Outcome of the jsQR call on one tick: it may throw, or it returns a
code or null. -/
inductive SoftOutcome
  | throws
  | found (code : Option JsCode)
deriving DecidableEq

/-- Center used by the native branch, Scanner.tsx lines 293-296: midpoint
of cornerPoints 0 and cornerPoints 2. -/
def barcodeCenter (b : Barcode) : Point :=
  ⟨((b.cornerPoints.getD 0 ⟨0, 0⟩).x + (b.cornerPoints.getD 2 ⟨0, 0⟩).x) / 2,
   ((b.cornerPoints.getD 0 ⟨0, 0⟩).y + (b.cornerPoints.getD 2 ⟨0, 0⟩).y) / 2⟩

/-- Center used by the jsQR branch, Scanner.tsx lines 320-323: midpoint of
the top left and bottom right corners. -/
def jsCodeCenter (c : JsCode) : Point :=
  ⟨(c.location.topLeftCorner.x + c.location.bottomRightCorner.x) / 2,
   (c.location.topLeftCorner.y + c.location.bottomRightCorner.y) / 2⟩

/-- Step 1 of `scanFrame`, Scanner.tsx lines 287-305: the native detector
block. Exceptions are swallowed by the try/catch; only the first barcode
of the returned list is examined, and it is kept only if its center
passes the focus gate. -/
def nativeStep (o : NativeOutcome) (w h : ℚ) : Option (String × List Point) :=
  match o with
  | .unavailable => none
  | .throws => none
  | .detects barcodes =>
      match barcodes with
      | [] => none
      | code :: _ =>
          if isPointInFocusArea (barcodeCenter code) w h then
            some (code.rawValue, code.cornerPoints)
          else
            none

/-- Step 2 of `scanFrame`, Scanner.tsx lines 307-337: the jsQR fallback
block. The jsQR call is not wrapped in a try/catch, so a throw escapes
(modelled as `Except.error`). The guard `code && code.data` makes an
empty decoded string falsy, and the result is kept only if its center
passes the focus gate. -/
def softStep (o : SoftOutcome) (w h : ℚ) :
    Except Unit (Option (String × List Point)) :=
  match o with
  | .throws => Except.error ()
  | .found none => Except.ok none
  | .found (some code) =>
      if code.data ≠ "" then
        if isPointInFocusArea (jsCodeCenter code) w h then
          Except.ok (some (code.data,
            [code.location.topLeftCorner,
             code.location.topRightCorner,
             code.location.bottomRightCorner,
             code.location.bottomLeftCorner]))
        else
          Except.ok none
      else
        Except.ok none

/-- The two-step decode chain of `scanFrame`: the jsQR fallback runs only
while `foundCode` is still false after step 1. The boolean flag records
whether the fallback step ran. -/
def decodeChain (n : NativeOutcome) (so : SoftOutcome) (w h : ℚ) :
    Except Unit (Option (String × List Point) × Bool) :=
  match nativeStep n w h with
  | some r => Except.ok (some r, false)
  | none =>
      match softStep so w h with
      | Except.error e => Except.error e
      | Except.ok r => Except.ok (r, true)

/-- Decode chain result with the ran-software flag dropped. -/
def chainResult (n : NativeOutcome) (so : SoftOutcome) (w h : ℚ) :
    Except Unit (Option (String × List Point)) :=
  (decodeChain n so w h).map Prod.fst

/-- Payload classification variants, src/types.ts. -/
inductive QRType
  | URL
  | TEXT
  | EMAIL
  | PHONE
  | WIFI
  | GEO
deriving DecidableEq

/-- Character level core of the classifier; String.startsWith is modelled
as a prefix test on the character list. -/
def detectQRTypeL (data : List Char) : QRType :=
  if "http://".toList.isPrefixOf data || "https://".toList.isPrefixOf data
      || "www.".toList.isPrefixOf data then .URL
  else if "mailto:".toList.isPrefixOf data then .EMAIL
  else if "tel:".toList.isPrefixOf data then .PHONE
  else if "WIFI:".toList.isPrefixOf data then .WIFI
  else if "geo:".toList.isPrefixOf data then .GEO
  else .TEXT

/-- src/utils/qrUtils.ts lines 3-10: prefix based payload classifier. -/
def detectQRType (data : String) : QRType :=
  detectQRTypeL data.toList

/-- Mutable refs read and written by one `scanFrame` tick. -/
structure ScanState where
  mem : ScanMemory
  currentCorners : Option (List Point)
deriving DecidableEq

/-- Initial tick state: both dedup refs at their initial values and no
tracked corners. -/
def initialState : ScanState :=
  { mem := initialMemory, currentCorners := none }

/-- Observable outcome of one completed `scanFrame` tick. `rendered` is
the corner set drawn this tick (none when nothing was drawn), `feedback`
records a `triggerFeedback` call, `dispatched` a `performAction` call and
`manualShown` a `setManualResult` call. `rescheduled` is true on every
completed tick, since the `requestAnimationFrame` line is the last
statement of the function; a tick that ends in `Except.error` never
reaches it. -/
structure TickOutput where
  state : ScanState
  rendered : Option (List Point)
  feedback : Bool
  dispatched : Option (String × QRType)
  manualShown : Option (String × QRType)
  rescheduled : Bool
deriving DecidableEq

/-- Scanner.tsx lines 376-378: the else branch of the per-tick detection
check; the tracked corners ref is cleared, nothing is drawn, no feedback,
dispatch or modal update happens, and the tail call to
requestAnimationFrame still runs. -/
def processIdle (s : ScanState) : TickOutput :=
  { state := { mem := s.mem, currentCorners := none },
    rendered := none,
    feedback := false,
    dispatched := none,
    manualShown := none,
    rescheduled := true }

/-- Scanner.tsx lines 339-378: the body run when the decode chain set
`foundCode`. With a nonempty corner list the tracker is updated and
drawn, then the deduplication condition is evaluated; on acceptance with
no open modal both dedup refs are written, feedback fires and either an
automatic dispatch or the manual modal follows. A found code with an
empty corner list falls into the same else branch as no detection. -/
def processDetection (rawData : String) (points : List Point) (now : Int)
    (modalOpen autoAction : Bool) (s : ScanState) : TickOutput :=
  if points.length > 0 then
    let corners := drawLensCorners s.currentCorners points
    let rendered := if points.length < 4 then none else corners
    let isSameCode := s.mem.lastScanned = some rawData
    let isCooldownOver := now - s.mem.lastScanTime > 2000
    if (!isSameCode || isCooldownOver) && !modalOpen then
      { state :=
          { mem := { lastScanned := some rawData, lastScanTime := now },
            currentCorners := corners },
        rendered := rendered,
        feedback := true,
        dispatched :=
          if autoAction then some (rawData, detectQRType rawData)
          else none,
        manualShown :=
          if autoAction then none
          else some (rawData, detectQRType rawData),
        rescheduled := true }
    else
      { state := { mem := s.mem, currentCorners := corners },
        rendered := rendered,
        feedback := false,
        dispatched := none,
        manualShown := none,
        rescheduled := true }
  else
    processIdle s

/-- Scanner.tsx lines 283-383: one tick of the scan loop, from the point
where the video frame is available (active, readyState at least 2,
canvas contexts present). Inputs are the outcomes of the two decoder
calls, the frame dimensions, the current time, whether the manual result
modal is open, the auto-action flag and the current refs. An uncaught
exception (only possible from the jsQR call) aborts the tick before the
next tick is scheduled. -/
def scanFrame (n : NativeOutcome) (so : SoftOutcome) (w h : ℚ) (now : Int)
    (modalOpen autoAction : Bool) (s : ScanState) :
    Except Unit TickOutput :=
  match decodeChain n so w h with
  | Except.error e => Except.error e
  | Except.ok (some (rawData, points), _) =>
      Except.ok (processDetection rawData points now modalOpen autoAction s)
  | Except.ok (none, _) => Except.ok (processIdle s)

/-- Scanner.tsx lines 661-694 (the jsQR-only Scanner variant): its
`scanFrame` wraps the jsQR call in a try/catch, so a decoder throw is
logged and the loop continues. Returns (next tick scheduled, scanned
payload): on a successful scan the function exits the loop by an early
return and hands off to `handleScan`. The guard also rejects payloads
that trim to the empty string. -/
def tickSimple (so : SoftOutcome) : Bool × Option String :=
  match so with
  | .throws => (true, none)
  | .found none => (true, none)
  | .found (some code) =>
      if code.data ≠ "" && code.data.trim ≠ "" then
        (false, some code.data)
      else
        (true, none)

/-- Scanner.tsx lines 64-70: the deactivation effect sets `lastScannedRef`
to null (and only that ref). -/
def deactivateCleanup (s : ScanState) : ScanState :=
  { s with mem := { s.mem with lastScanned := none } }

/-- Scanner.tsx lines 473-478: dismissing the manual result modal clears
`lastScannedRef` (and only that ref). -/
def closeManualResult (s : ScanState) : ScanState :=
  { s with mem := { s.mem with lastScanned := none } }

/-- src/utils/qrUtils.ts lines 74-76: WiFi configuration string builder. -/
def generateWifiString (ssid pass encryption : String) : String :=
  "WIFI:T:" ++ encryption ++ ";S:" ++ ssid ++ ";P:" ++ pass ++ ";;"

/-- Leftmost match of the regular expression P:([^;]+) over a character
list, returning the captured group: scan left to right for a P followed
by a colon followed by at least one character other than a semicolon;
the greedy group is the maximal run of non-semicolon characters. When
the two lookahead characters read P: but the next character is a
semicolon (or absent) the scan resumes at the colon, as a regex engine
would. -/
def firstPassMatch : List Char → Option (List Char)
  | [] => none
  | [_] => none
  | a :: b :: rest =>
      if a = 'P' && b = ':' then
        match rest with
        | [] => firstPassMatch (b :: rest)
        | d :: tail =>
            if d = ';' then firstPassMatch (b :: rest)
            else some ((d :: tail).takeWhile fun x => !(x = ';'))
      else firstPassMatch (b :: rest)

/-- src/utils/qrUtils.ts lines 55-64: the WIFI branch of `performAction`
extracts the password as the first capture of P:([^;]+); null when the
pattern does not match. -/
def wifiPassword (data : String) : Option String :=
  (firstPassMatch data.toList).map fun cs => ⟨cs⟩

/-- True when no occurrence of P immediately followed by a colon starts
inside `l`, where `l` is understood as being followed by `next` (so a
trailing P of `l` is checked against the head of `next`). -/
def noPairUpto : List Char → List Char → Bool
  | [], _ => true
  | [a], next => !(a = 'P' && next.head? = some ':')
  | a :: b :: rest, next => !(a = 'P' && b = ':') && noPairUpto (b :: rest) next

/-- True when the two character sequence P: occurs nowhere in `s`. -/
def noPassKey (s : String) : Bool :=
  noPairUpto s.toList []

/-- Whether a tick called `triggerFeedback`; an aborted tick called
nothing. -/
def tickFeedback : Except Unit TickOutput → Bool
  | .ok o => o.feedback
  | .error _ => false

/-- Strictly between, in either direction. -/
def strictBetween (a b c : ℚ) : Prop :=
  (a < b ∧ b < c) ∨ (c < b ∧ b < a)

instance {ε α : Type} [DecidableEq ε] [DecidableEq α] :
    DecidableEq (Except ε α)
  | .ok a, .ok b =>
      if h : a = b then isTrue (congrArg Except.ok h)
      else isFalse fun hh => h (Except.ok.inj hh)
  | .error a, .error b =>
      if h : a = b then isTrue (congrArg Except.error h)
      else isFalse fun hh => h (Except.error.inj hh)
  | .ok _, .error _ => isFalse fun hh => Except.noConfusion hh
  | .error _, .ok _ => isFalse fun hh => Except.noConfusion hh

theorem noPairUpto_of_not_mem :
    ∀ (l next : List Char), 'P' ∉ l → noPairUpto l next = true := by
  intro l
  induction l with
  | nil => intro next _; rfl
  | cons a rest ih =>
      intro next h
      have ha : ¬ a = 'P' := fun hh => h (hh ▸ List.mem_cons_self a rest)
      have hrest : 'P' ∉ rest := fun hh => h (List.mem_cons_of_mem a hh)
      cases rest with
      | nil => simp [noPairUpto, ha]
      | cons b rest2 =>
          simp only [noPairUpto, Bool.and_eq_true]
          exact ⟨by simp [ha], ih next hrest⟩

theorem noPairUpto_of_head :
    ∀ (l next : List Char), noPairUpto l [] = true →
      next.head? ≠ some ':' → noPairUpto l next = true := by
  intro l
  induction l with
  | nil => intro next _ _; rfl
  | cons a rest ih =>
      intro next h hh
      cases rest with
      | nil => simp [noPairUpto, hh]
      | cons b rest2 =>
          simp only [noPairUpto, Bool.and_eq_true] at h ⊢
          exact ⟨h.1, ih next h.2 hh⟩

theorem firstPassMatch_append :
    ∀ (l1 l2 : List Char), noPairUpto l1 l2 = true →
      firstPassMatch (l1 ++ l2) = firstPassMatch l2 := by
  intro l1
  induction l1 with
  | nil => intro l2 _; rfl
  | cons a rest ih =>
      intro l2 h
      cases rest with
      | nil =>
          cases l2 with
          | nil => rfl
          | cons b l2' =>
              cases hP : (a = 'P' && b = ':') with
              | true =>
                  rw [Bool.and_eq_true, decide_eq_true_eq,
                    decide_eq_true_eq] at hP
                  simp [noPairUpto, hP.1, hP.2] at h
              | false =>
                  simp only [List.cons_append, List.nil_append,
                    firstPassMatch]
                  rw [if_neg (by simp [hP])]
      | cons a2 rest2 =>
          cases hP : (a = 'P' && a2 = ':') with
          | true => simp [noPairUpto, hP] at h
          | false =>
              simp only [noPairUpto, hP] at h
              simp only [List.cons_append, firstPassMatch]
              rw [if_neg (by simp [hP])]
              exact ih l2 (by simpa using h)

theorem takeWhile_no_semi :
    ∀ (l t : List Char), (∀ c ∈ l, ¬ c = ';') →
      (l ++ ';' :: t).takeWhile (fun x => !(x = ';')) = l := by
  intro l
  induction l with
  | nil => intro t _; simp [List.takeWhile_cons]
  | cons a rest ih =>
      intro t h
      have ha : ¬ a = ';' := h a (List.mem_cons_self a rest)
      simp only [List.cons_append, List.takeWhile_cons, ha]
      simp only [decide_False, Bool.not_false, if_true]
      rw [ih t fun c hc => h c (List.mem_cons_of_mem a hc)]

theorem noPairUpto_cons_of (l : List Char) (c : Char) (t : List Char)
    (h : noPairUpto l [] = true) (hc : ¬ c = ':') :
    noPairUpto l (c :: t) = true :=
  noPairUpto_of_head l (c :: t) h (by simp [List.head?, hc])

theorem firstPassMatch_wifiList (el sl pl : List Char)
    (henc : noPairUpto el [] = true) (hssid : noPairUpto sl [] = true)
    (hpass : ∀ c ∈ pl, ¬ c = ';') (hne : pl ≠ []) :
    firstPassMatch ("WIFI:T:".toList ++ (el ++ (";S:".toList ++ (sl ++
      (";P:".toList ++ (pl ++ ";;".toList)))))) = some pl := by
  rw [firstPassMatch_append "WIFI:T:".toList _
    (noPairUpto_of_not_mem _ _ (by decide))]
  rw [show (";S:".toList ++ (sl ++ (";P:".toList ++ (pl ++ ";;".toList))))
    = ';' :: ('S' :: (':' :: (sl ++ (";P:".toList ++ (pl ++ ";;".toList)))))
    from rfl]
  rw [firstPassMatch_append el _
    (noPairUpto_cons_of el ';' _ henc (by decide))]
  rw [show (';' :: ('S' :: (':' :: (sl ++ (";P:".toList ++
      (pl ++ ";;".toList))))))
    = [';', 'S', ':'] ++ (sl ++ (";P:".toList ++ (pl ++ ";;".toList)))
    from rfl]
  rw [firstPassMatch_append [';', 'S', ':'] _
    (noPairUpto_of_not_mem _ _ (by decide))]
  rw [show (";P:".toList ++ (pl ++ ";;".toList))
    = ';' :: ('P' :: (':' :: (pl ++ ";;".toList))) from rfl]
  rw [firstPassMatch_append sl _
    (noPairUpto_cons_of sl ';' _ hssid (by decide))]
  rw [show (';' :: ('P' :: (':' :: (pl ++ ";;".toList))))
    = [';'] ++ ('P' :: (':' :: (pl ++ ";;".toList))) from rfl]
  rw [firstPassMatch_append [';'] _
    (noPairUpto_of_not_mem _ _ (by decide))]
  cases pl with
  | nil => exact absurd rfl hne
  | cons c pl' =>
      have hc : ¬ c = ';' := hpass c (List.mem_cons_self c pl')
      simp only [List.cons_append, firstPassMatch]
      rw [if_pos (by decide)]
      rw [if_neg hc]
      rw [show (c :: (pl' ++ ";;".toList)) = ((c :: pl') ++ ';' :: [';'])
        from rfl]
      rw [takeWhile_no_semi (c :: pl') [';'] hpass]

theorem generateWifiString_toList (ssid pass enc : String) :
    (generateWifiString ssid pass enc).toList =
      "WIFI:T:".toList ++ (enc.toList ++ (";S:".toList ++ (ssid.toList ++
        (";P:".toList ++ (pass.toList ++ ";;".toList))))) := by
  simp [generateWifiString, String.toList, String.data_append,
    List.append_assoc]

theorem detectQRTypeL_wifi_head (rest : List Char) :
    detectQRTypeL ('W' :: ('I' :: ('F' :: ('I' :: (':' :: rest))))) =
      QRType.WIFI := by
  simp [detectQRTypeL, List.isPrefixOf]

/-- C5 counterexample: the round trip as claimed fails for an arbitrary
encryption string. With enc set to P:x the first match of P:([^;]+)
lands inside the encryption field and extracts x instead of the real
password, although ssid and pass contain no semicolon; and with an empty
password the pattern does not match at all, so nothing is extracted. -/
theorem wifi_roundtrip_counterexample :
    detectQRType (generateWifiString "N" "secret" "P:x") = QRType.WIFI ∧
    wifiPassword (generateWifiString "N" "secret" "P:x") = some "x" ∧
    some "x" ≠ some "secret" ∧
    wifiPassword (generateWifiString "N" "" "WPA") = none := by
  decide

/-- C5 (amended): for every encryption string and ssid in which the two
character sequence P: does not occur (and ssid without semicolons), and
every nonempty password without semicolons, the generated WiFi string
classifies as WIFI and the first capture of P:([^;]+) recovers exactly
the original password. -/
theorem wifi_roundtrip (ssid pass enc : String)
    (henc : noPassKey enc = true) (hssid : noPassKey ssid = true)
    (_hssemi : ';' ∉ ssid.toList) (hpsemi : ';' ∉ pass.toList)
    (hpne : pass ≠ "") :
    detectQRType (generateWifiString ssid pass enc) = QRType.WIFI ∧
    wifiPassword (generateWifiString ssid pass enc) = some pass := by
  have hne : pass.toList ≠ [] := by
    intro h
    apply hpne
    cases pass with
    | mk d =>
        simp [String.toList] at h
        subst h
        rfl
  constructor
  · unfold detectQRType
    rw [generateWifiString_toList]
    exact detectQRTypeL_wifi_head
      ('T' :: (':' :: (enc.toList ++ (";S:".toList ++ (ssid.toList ++
        (";P:".toList ++ (pass.toList ++ ";;".toList)))))))
  · unfold wifiPassword
    rw [generateWifiString_toList]
    rw [firstPassMatch_wifiList enc.toList ssid.toList pass.toList henc
      hssid (fun c hc hceq => hpsemi (hceq ▸ hc)) hne]
    rfl

/-- C5 witness: the amended round trip at a concrete benign triple. -/
theorem wifi_roundtrip_witness :
    detectQRType (generateWifiString "MyNetwork" "MyPass" "WPA") =
      QRType.WIFI ∧
    wifiPassword (generateWifiString "MyNetwork" "MyPass" "WPA") =
      some "MyPass" :=
  wifi_roundtrip "MyNetwork" "MyPass" "WPA" (by decide) (by decide)
    (by decide) (by decide) (by decide)

/-- C1: the deduplication step accepts exactly when the stored payload is
absent, the incoming payload differs from it, or more than 2000 ms have
passed since the last acceptance; on acceptance it stores the payload and
the timestamp, otherwise it leaves the memory unchanged; and the
reference event sequence A at 0, A at 500, A at 2001, B at 2050 yields
true, false, true, true. -/
theorem shouldAct_correct :
    (∀ (p : String) (now : Int) (mem : ScanMemory),
      (shouldAct p now mem).1 = true ↔
        (mem.lastScanned = none ∨ mem.lastScanned ≠ some p ∨
          now - mem.lastScanTime > 2000)) ∧
    (∀ (p : String) (now : Int) (mem : ScanMemory),
      (shouldAct p now mem).1 = true →
        (shouldAct p now mem).2 =
          { lastScanned := some p, lastScanTime := now }) ∧
    (∀ (p : String) (now : Int) (mem : ScanMemory),
      (shouldAct p now mem).1 = false → (shouldAct p now mem).2 = mem) ∧
    runDedup [("A", 0), ("A", 500), ("A", 2001), ("B", 2050)]
      initialMemory = [true, false, true, true] := by
  refine ⟨?_, ?_, ?_, by decide⟩
  · intro p now mem
    by_cases h1 : mem.lastScanned = some p <;>
      by_cases h2 : now - mem.lastScanTime > 2000 <;>
        simp [shouldAct, h1, h2]
  · intro p now mem h
    by_cases h1 : mem.lastScanned = some p <;>
      by_cases h2 : now - mem.lastScanTime > 2000 <;>
        simp [shouldAct, h1, h2] at h ⊢
  · intro p now mem h
    by_cases h1 : mem.lastScanned = some p <;>
      by_cases h2 : now - mem.lastScanTime > 2000 <;>
        simp [shouldAct, h1, h2] at h ⊢

/-- C1 witness: the acceptance rule applied at a concrete event whose
cooldown has just expired. -/
theorem shouldAct_correct_witness :
    (shouldAct "A" 2001 { lastScanned := some "A", lastScanTime := 0 }).1
      = true ∧
    (shouldAct "A" 2001 { lastScanned := some "A", lastScanTime := 0 }).2
      = { lastScanned := some "A", lastScanTime := 2001 } :=
  ⟨(shouldAct_correct.1 "A" 2001 _).mpr (Or.inr (Or.inr (by decide))),
   shouldAct_correct.2.1 "A" 2001 _ (by decide)⟩

/-- C4 counterexample: deactivation and modal dismissal clear only the
stored payload; the stored acceptance time keeps its old value 1000
instead of returning to its initial value 0, so the two fields are not
both reset as claimed. -/
theorem reset_keeps_lastScanTime :
    (deactivateCleanup ⟨⟨some "A", 1000⟩, none⟩).mem.lastScanTime = 1000 ∧
    (closeManualResult ⟨⟨some "A", 1000⟩, none⟩).mem.lastScanTime = 1000 ∧
    (1000 : Int) ≠ initialMemory.lastScanTime := by
  decide

/-- C4 (amended): deactivation and modal dismissal reset only
lastScanned to none, preserving lastScanTime; an immediate re-trigger on
any payload is nevertheless possible, because a cleared payload alone
makes the deduplication step accept. -/
theorem reset_clears_only_lastScanned :
    (∀ s, (deactivateCleanup s).mem.lastScanned = none ∧
      (deactivateCleanup s).mem.lastScanTime = s.mem.lastScanTime) ∧
    (∀ s, (closeManualResult s).mem.lastScanned = none ∧
      (closeManualResult s).mem.lastScanTime = s.mem.lastScanTime) ∧
    (∀ (s : ScanState) (p : String) (now : Int),
      (shouldAct p now (deactivateCleanup s).mem).1 = true) ∧
    (∀ (s : ScanState) (p : String) (now : Int),
      (shouldAct p now (closeManualResult s).mem).1 = true) := by
  refine ⟨fun s => ⟨rfl, rfl⟩, fun s => ⟨rfl, rfl⟩, ?_, ?_⟩ <;>
    intro s p now <;> simp [shouldAct, deactivateCleanup, closeManualResult]

/-- C6: the native detection path keeps a barcode exactly when the
midpoint of its corners 0 and 2 passes the focus gate; the gate holds
exactly when that point is strictly inside the rectangle inset by one
fifth of the width and height from each edge; the hardcoded gate agrees
with the generalized gate at marginFraction one fifth; the frame
midpoint is always accepted for any marginFraction below one half, and
every frame corner is always rejected for any positive marginFraction. -/
theorem focusGate_spec :
    (∀ (bc : Barcode) (rest : List Barcode) (w h : ℚ),
      nativeStep (.detects (bc :: rest)) w h =
        if isPointInFocusArea (barcodeCenter bc) w h then
          some (bc.rawValue, bc.cornerPoints)
        else none) ∧
    (∀ (p : Point) (w h : ℚ), isPointInFocusArea p w h = true ↔
      (w * (1/5) < p.x ∧ p.x < w - w * (1/5) ∧
        h * (1/5) < p.y ∧ p.y < h - h * (1/5))) ∧
    (∀ (p : Point) (w h : ℚ),
      isPointInFocusArea p w h = focusGateAccepts (1/5) p w h) ∧
    (∀ (m w h : ℚ), 0 < w → 0 < h → m < 1/2 →
      focusGateAccepts m ⟨w / 2, h / 2⟩ w h = true) ∧
    (∀ (m w h : ℚ), 0 < w → 0 < h → 0 < m →
      focusGateAccepts m ⟨0, 0⟩ w h = false ∧
      focusGateAccepts m ⟨w, 0⟩ w h = false ∧
      focusGateAccepts m ⟨0, h⟩ w h = false ∧
      focusGateAccepts m ⟨w, h⟩ w h = false) := by
  refine ⟨fun bc rest w h => rfl, ?_, fun p w h => rfl, ?_, ?_⟩
  · intro p w h
    simp [isPointInFocusArea, and_assoc]
  · intro m w h hw hh hm
    have hx : w * m < w / 2 := by nlinarith
    have hy : h * m < h / 2 := by nlinarith
    simp only [focusGateAccepts, Bool.and_eq_true, decide_eq_true_eq]
    refine ⟨⟨⟨?_, ?_⟩, ?_⟩, ?_⟩ <;> [linarith; linarith; linarith; linarith]
  · intro m w h hw hh hm
    have hwm : 0 < w * m := mul_pos hw hm
    have hhm : 0 < h * m := mul_pos hh hm
    refine ⟨?_, ?_, ?_, ?_⟩ <;>
      · rw [Bool.eq_false_iff]
        intro hcontra
        simp only [focusGateAccepts, Bool.and_eq_true,
          decide_eq_true_eq] at hcontra
        obtain ⟨⟨⟨h1, h2⟩, h3⟩, h4⟩ := hcontra
        linarith

/-- C6 witness: the gate facts at a 100 by 100 frame with marginFraction
one fifth. -/
theorem focusGate_spec_witness :
    focusGateAccepts (1/5) ⟨100 / 2, 100 / 2⟩ 100 100 = true ∧
    focusGateAccepts (1/5) ⟨0, 0⟩ 100 100 = false :=
  ⟨focusGate_spec.2.2.2.1 (1/5) 100 100 (by norm_num) (by norm_num)
      (by norm_num),
   (focusGate_spec.2.2.2.2 (1/5) 100 100 (by norm_num) (by norm_num)
      (by norm_num)).1⟩

/-- C7 counterexample: when the new corner input equals the previous
state, the blended output equals both, so an output coordinate is not
strictly between the previous output and the new input. -/
theorem drawLensCorners_not_strict :
    drawLensCorners (some [⟨0, 0⟩, ⟨10, 0⟩, ⟨10, 10⟩, ⟨0, 10⟩])
        [⟨0, 0⟩, ⟨10, 0⟩, ⟨10, 10⟩, ⟨0, 10⟩] =
      some [⟨0, 0⟩, ⟨10, 0⟩, ⟨10, 10⟩, ⟨0, 10⟩] ∧
    ¬ strictBetween 0 0 0 := by
  constructor
  · with_unfolding_all decide
  · simp [strictBetween]

/-- C7 (amended): with a previous state and a four point input the
tracker output is componentwise prev plus (input minus prev) times 0.4,
a fixed factor that lies in the open interval (0, 1) and in the range
0.3 to 0.4; each output coordinate is strictly between the previous one
and the input one whenever those two differ (and equals them when they
coincide, which is why the original strictness claim fails). -/
theorem drawLensCorners_blend :
    (∀ p0 p1 p2 p3 q0 q1 q2 q3 : Point,
      drawLensCorners (some [p0, p1, p2, p3]) [q0, q1, q2, q3] =
        some [⟨lerp p0.x q0.x (2/5), lerp p0.y q0.y (2/5)⟩,
              ⟨lerp p1.x q1.x (2/5), lerp p1.y q1.y (2/5)⟩,
              ⟨lerp p2.x q2.x (2/5), lerp p2.y q2.y (2/5)⟩,
              ⟨lerp p3.x q3.x (2/5), lerp p3.y q3.y (2/5)⟩]) ∧
    (∀ a b : ℚ, a ≠ b → strictBetween a (lerp a b (2/5)) b) ∧
    ((0 : ℚ) < 2/5 ∧ (2/5 : ℚ) < 1 ∧ (3/10 : ℚ) ≤ 2/5 ∧
      (2/5 : ℚ) ≤ 2/5) := by
  refine ⟨?_, ?_, by norm_num⟩
  · intro p0 p1 p2 p3 q0 q1 q2 q3
    rfl
  · intro a b hab
    rcases lt_or_gt_of_ne hab with hlt | hgt
    · exact Or.inl ⟨by simp only [lerp]; nlinarith,
        by simp only [lerp]; nlinarith⟩
    · exact Or.inr ⟨by simp only [lerp]; nlinarith,
        by simp only [lerp]; nlinarith⟩

/-- C7 witness: the blend of two distinct coordinates lands strictly
between them. -/
theorem drawLensCorners_blend_witness :
    strictBetween 0 (lerp 0 10 (2/5)) 10 :=
  drawLensCorners_blend.2.1 0 10 (by norm_num)

/-- C10: the native step inspects only the head of the barcode list, and
when that first barcode fails the focus gate the whole native step
yields nothing regardless of any later barcodes in the list. -/
theorem native_first_barcode_only :
    (∀ (bc : Barcode) (rest : List Barcode) (w h : ℚ),
      nativeStep (.detects (bc :: rest)) w h =
        nativeStep (.detects [bc]) w h) ∧
    (∀ (bc : Barcode) (rest : List Barcode) (w h : ℚ),
      isPointInFocusArea (barcodeCenter bc) w h = false →
        nativeStep (.detects (bc :: rest)) w h = none) := by
  refine ⟨fun bc rest w h => rfl, ?_⟩
  intro bc rest w h hgate
  simp [nativeStep, hgate]

theorem scanFrame_found {n : NativeOutcome} {so : SoftOutcome} {w h : ℚ}
    {raw : String} {pts : List Point} {flag : Bool}
    (hdc : decodeChain n so w h = Except.ok (some (raw, pts), flag))
    (now : Int) (mo a : Bool) (s : ScanState) :
    scanFrame n so w h now mo a s =
      Except.ok (processDetection raw pts now mo a s) := by
  unfold scanFrame
  rw [hdc]

theorem scanFrame_idle {n : NativeOutcome} {so : SoftOutcome} {w h : ℚ}
    {flag : Bool}
    (hdc : decodeChain n so w h = Except.ok (none, flag))
    (now : Int) (mo a : Bool) (s : ScanState) :
    scanFrame n so w h now mo a s = Except.ok (processIdle s) := by
  unfold scanFrame
  rw [hdc]

theorem decodeChain_of_chainResult {n : NativeOutcome} {so : SoftOutcome}
    {w h : ℚ} {r : Option (String × List Point)}
    (hc : chainResult n so w h = Except.ok r) :
    ∃ flag, decodeChain n so w h = Except.ok (r, flag) := by
  unfold chainResult at hc
  cases hdc : decodeChain n so w h with
  | error e => rw [hdc] at hc; exact Except.noConfusion hc
  | ok pr =>
      obtain ⟨r1, flag⟩ := pr
      rw [hdc] at hc
      simp only [Except.map] at hc
      cases Except.ok.inj hc
      exact ⟨flag, rfl⟩

/-- C2: the jsQR fallback step runs exactly when the native step yields
nothing (the chain flag records whether the fallback ran), the decode
chain returns the first successful result, and it yields nothing when
both steps fail. -/
theorem decodeChain_fallback :
    (∀ (n : NativeOutcome) (so : SoftOutcome) (w h : ℚ)
        (r : String × List Point),
      nativeStep n w h = some r →
        decodeChain n so w h = Except.ok (some r, false)) ∧
    (∀ (n : NativeOutcome) (so : SoftOutcome) (w h : ℚ)
        (r : Option (String × List Point)),
      nativeStep n w h = none → softStep so w h = Except.ok r →
        decodeChain n so w h = Except.ok (r, true)) ∧
    (∀ (n : NativeOutcome) (so : SoftOutcome) (w h : ℚ)
        (res : Option (String × List Point)) (flag : Bool),
      decodeChain n so w h = Except.ok (res, flag) →
        (flag = true ↔ nativeStep n w h = none)) ∧
    (∀ (n : NativeOutcome) (so : SoftOutcome) (w h : ℚ),
      nativeStep n w h = none → softStep so w h = Except.ok none →
        chainResult n so w h = Except.ok none) := by
  refine ⟨?_, ?_, ?_, ?_⟩
  · intro n so w h r hn
    unfold decodeChain
    rw [hn]
  · intro n so w h r hn hs
    unfold decodeChain
    rw [hn, hs]
  · intro n so w h res flag hdc
    unfold decodeChain at hdc
    cases hn : nativeStep n w h with
    | some r =>
        rw [hn] at hdc
        cases Except.ok.inj hdc
        simp
    | none =>
        rw [hn] at hdc
        cases hs : softStep so w h with
        | error e => rw [hs] at hdc; exact Except.noConfusion hdc
        | ok r =>
            rw [hs] at hdc
            cases Except.ok.inj hdc
            simp
  · intro n so w h hn hs
    unfold chainResult decodeChain
    rw [hn, hs]
    rfl

/-- C2 witness: with a centered native barcode the chain returns it and
the fallback never runs even when jsQR would throw; with no native
detector and a jsQR miss the fallback runs and the chain yields
nothing. -/
theorem decodeChain_fallback_witness :
    decodeChain
        (.detects
          [(⟨"A", [⟨40, 40⟩, ⟨60, 40⟩, ⟨60, 60⟩, ⟨40, 60⟩]⟩ : Barcode)])
        .throws 100 100 =
      Except.ok
        (some ("A", [⟨40, 40⟩, ⟨60, 40⟩, ⟨60, 60⟩, ⟨40, 60⟩]), false) ∧
    decodeChain .unavailable (.found none) 100 100 =
      Except.ok (none, true) ∧
    chainResult .unavailable (.found none) 100 100 = Except.ok none :=
  ⟨decodeChain_fallback.1 _ .throws 100 100 _ (by with_unfolding_all decide),
   decodeChain_fallback.2.1 .unavailable _ 100 100 none rfl rfl,
   decodeChain_fallback.2.2.2 .unavailable _ 100 100 rfl rfl⟩

/-- C3 counterexample: a throwing software decoder aborts the tick with
an uncaught exception, so the tail requestAnimationFrame call never runs
and the loop is not rescheduled, contradicting the claim that decoder
exceptions from either step are swallowed. -/
theorem softDecoder_throw_aborts_tick :
    scanFrame .unavailable .throws 100 100 0 false true initialState =
      Except.error () := by
  with_unfolding_all decide

/-- C3 (amended): exceptions from the native decoder are caught inside
the tick and behave exactly like an unavailable detector, every
completed tick schedules the next tick, but an exception from the
software decoder is not caught: whenever the native step yields nothing
a throwing jsQR call aborts the tick so the next tick is never
scheduled. The jsQR-only Scanner variant, by contrast, wraps its decoder
call in a try/catch and keeps its loop alive. -/
theorem decoder_exception_containment :
    (∀ (so : SoftOutcome) (w h : ℚ) (now : Int) (mo a : Bool)
        (s : ScanState),
      scanFrame .throws so w h now mo a s =
        scanFrame .unavailable so w h now mo a s) ∧
    (∀ (n : NativeOutcome) (so : SoftOutcome) (w h : ℚ) (now : Int)
        (mo a : Bool) (s : ScanState) (out : TickOutput),
      scanFrame n so w h now mo a s = Except.ok out →
        out.rescheduled = true) ∧
    (∀ (n : NativeOutcome) (w h : ℚ) (now : Int) (mo a : Bool)
        (s : ScanState),
      nativeStep n w h = none →
        scanFrame n .throws w h now mo a s = Except.error ()) ∧
    tickSimple .throws = (true, none) := by
  refine ⟨fun so w h now mo a s => rfl, ?_, ?_, rfl⟩
  · intro n so w h now mo a s out hout
    cases hdc : decodeChain n so w h with
    | error e =>
        unfold scanFrame at hout
        rw [hdc] at hout
        exact Except.noConfusion hout
    | ok pr =>
        obtain ⟨r, flag⟩ := pr
        cases r with
        | none =>
            rw [scanFrame_idle hdc now mo a s] at hout
            cases Except.ok.inj hout
            rfl
        | some rp =>
            obtain ⟨raw, pts⟩ := rp
            rw [scanFrame_found hdc now mo a s] at hout
            cases Except.ok.inj hout
            unfold processDetection
            split
            · dsimp only
              split <;> rfl
            · rfl
  · intro n w h now mo a s hn
    have hc : decodeChain n .throws w h = Except.error () := by
      unfold decodeChain
      rw [hn]
      rfl
    unfold scanFrame
    rw [hc]

/-- C3 witness: a completed tick reports rescheduling, and a concrete
tick with no native detector and a throwing jsQR call ends in the
uncaught exception. -/
theorem decoder_exception_containment_witness :
    (processIdle initialState).rescheduled = true ∧
    scanFrame .unavailable .throws 50 50 5 false false initialState =
      Except.error () :=
  ⟨decoder_exception_containment.2.1 .unavailable (.found none) 100 100 0
      false true initialState (processIdle initialState) rfl,
   decoder_exception_containment.2.2.1 .unavailable 50 50 5 false false
      initialState rfl⟩

/-- C8: a completed tick whose decode chain produced no accepted
detection clears the tracked corners to none, and on a tick whose chain
produced a four corner detection while the tracker state was none the
tracker snaps, storing and rendering exactly the detected corner points
with no smoothing. -/
theorem tracker_clear_and_snap :
    (∀ (n : NativeOutcome) (so : SoftOutcome) (w h : ℚ) (now : Int)
        (mo a : Bool) (s : ScanState) (out : TickOutput),
      chainResult n so w h = Except.ok none →
      scanFrame n so w h now mo a s = Except.ok out →
        out.state.currentCorners = none) ∧
    (∀ (n : NativeOutcome) (so : SoftOutcome) (w h : ℚ) (now : Int)
        (mo a : Bool) (s : ScanState) (out : TickOutput)
        (p : String) (q0 q1 q2 q3 : Point),
      s.currentCorners = none →
      chainResult n so w h = Except.ok (some (p, [q0, q1, q2, q3])) →
      scanFrame n so w h now mo a s = Except.ok out →
        out.state.currentCorners = some [q0, q1, q2, q3] ∧
        out.rendered = some [q0, q1, q2, q3]) := by
  constructor
  · intro n so w h now mo a s out hc hout
    obtain ⟨flag, hdc⟩ := decodeChain_of_chainResult hc
    rw [scanFrame_idle hdc now mo a s] at hout
    cases Except.ok.inj hout
    rfl
  · intro n so w h now mo a s out p q0 q1 q2 q3 hs hc hout
    obtain ⟨flag, hdc⟩ := decodeChain_of_chainResult hc
    rw [scanFrame_found hdc now mo a s] at hout
    cases Except.ok.inj hout
    unfold processDetection
    rw [hs, if_pos (show ([q0, q1, q2, q3] : List Point).length > 0
      by simp)]
    dsimp only
    split <;> exact ⟨rfl, rfl⟩

/-- C8 witness: the clear at a tick with no detection, and the snap at a
first detection from a cleared tracker. -/
theorem tracker_clear_and_snap_witness :
    (processIdle ⟨⟨some "A", 5⟩,
        some [⟨1, 1⟩, ⟨2, 2⟩, ⟨3, 3⟩, ⟨4, 4⟩]⟩).state.currentCorners
      = none ∧
    (processDetection "A" [⟨40, 40⟩, ⟨60, 40⟩, ⟨60, 60⟩, ⟨40, 60⟩] 7 false
        true initialState).state.currentCorners =
      some [⟨40, 40⟩, ⟨60, 40⟩, ⟨60, 60⟩, ⟨40, 60⟩] ∧
    (processDetection "A" [⟨40, 40⟩, ⟨60, 40⟩, ⟨60, 60⟩, ⟨40, 60⟩] 7 false
        true initialState).rendered =
      some [⟨40, 40⟩, ⟨60, 40⟩, ⟨60, 60⟩, ⟨40, 60⟩] := by
  have hsnap := tracker_clear_and_snap.2
    (.detects [(⟨"A", [⟨40, 40⟩, ⟨60, 40⟩, ⟨60, 60⟩, ⟨40, 60⟩]⟩ : Barcode)])
    (.found none) 100 100 7 false true initialState
    (processDetection "A" [⟨40, 40⟩, ⟨60, 40⟩, ⟨60, 60⟩, ⟨40, 60⟩] 7
      false true initialState)
    "A" ⟨40, 40⟩ ⟨60, 40⟩ ⟨60, 60⟩ ⟨40, 60⟩ rfl
    (by with_unfolding_all decide) (by with_unfolding_all decide)
  exact ⟨tracker_clear_and_snap.1 .unavailable (.found none) 100 100 7
    false true ⟨⟨some "A", 5⟩, some [⟨1, 1⟩, ⟨2, 2⟩, ⟨3, 3⟩, ⟨4, 4⟩]⟩
    (processIdle ⟨⟨some "A", 5⟩, some [⟨1, 1⟩, ⟨2, 2⟩, ⟨3, 3⟩, ⟨4, 4⟩]⟩)
    rfl rfl, hsnap.1, hsnap.2⟩

/-- C9: a jsQR result whose decoded payload is the empty string is
treated as no detection by the falsy data guard: the tick takes the idle
branch, clearing the tracker and producing no feedback, dispatch or
modal; the native path has no such guard and accepts an empty payload
whose corners pass the gate. -/
theorem empty_payload_guard :
    (∀ (n : NativeOutcome) (loc : JsLocation) (w h : ℚ) (now : Int)
        (mo a : Bool) (s : ScanState),
      nativeStep n w h = none →
        scanFrame n (.found (some ⟨"", loc⟩)) w h now mo a s =
          Except.ok (processIdle s)) ∧
    (∀ (pts : List Point) (so : SoftOutcome) (w h : ℚ) (now : Int)
        (a : Bool) (s : ScanState),
      pts ≠ [] →
      isPointInFocusArea (barcodeCenter ⟨"", pts⟩) w h = true →
      (s.mem.lastScanned ≠ some "" ∨ now - s.mem.lastScanTime > 2000) →
        tickFeedback
          (scanFrame (.detects [⟨"", pts⟩]) so w h now false a s)
          = true) := by
  constructor
  · intro n loc w h now mo a s hn
    have hdc : decodeChain n (.found (some ⟨"", loc⟩)) w h =
        Except.ok (none, true) := by
      unfold decodeChain
      rw [hn]
      rfl
    exact scanFrame_idle hdc now mo a s
  · intro pts so w h now a s hne hgate hcond
    have hnat : nativeStep (.detects [⟨"", pts⟩]) w h =
        some ("", pts) := by
      show (if isPointInFocusArea (barcodeCenter ⟨"", pts⟩) w h then
        some (("" : String), pts) else none) = some ("", pts)
      rw [if_pos hgate]
    have hdc : decodeChain (.detects [⟨"", pts⟩]) so w h =
        Except.ok (some ("", pts), false) := by
      unfold decodeChain
      rw [hnat]
    rw [scanFrame_found hdc now false a s]
    show (processDetection "" pts now false a s).feedback = true
    unfold processDetection
    rw [if_pos (List.length_pos.mpr hne)]
    dsimp only
    rw [if_pos ?hc]
    case hc =>
      rcases hcond with hcp | hcp <;> simp [hcp]

/-- C9 witness: an empty jsQR payload takes the idle branch, while an
empty native payload with centered corners fires feedback. -/
theorem empty_payload_guard_witness :
    scanFrame .unavailable
        (.found (some ⟨"", ⟨⟨40, 40⟩, ⟨60, 40⟩, ⟨60, 60⟩, ⟨40, 60⟩⟩⟩))
        100 100 3 false true initialState =
      Except.ok (processIdle initialState) ∧
    tickFeedback
        (scanFrame
          (.detects [⟨"", [⟨40, 40⟩, ⟨60, 40⟩, ⟨60, 60⟩, ⟨40, 60⟩]⟩])
          (.found none) 100 100 3 false true initialState)
      = true :=
  ⟨empty_payload_guard.1 .unavailable _ 100 100 3 false true initialState
      rfl,
   empty_payload_guard.2 [⟨40, 40⟩, ⟨60, 40⟩, ⟨60, 60⟩, ⟨40, 60⟩]
      (.found none) 100 100 3 true initialState (by decide)
      (by with_unfolding_all decide) (Or.inl (by decide))⟩

/-- C10 witness: a first off-center barcode suppresses the native step
even though the second barcode in the same list is centered and would
pass the gate. -/
theorem native_first_barcode_only_witness :
    isPointInFocusArea (barcodeCenter
        { rawValue := "left",
          cornerPoints := [⟨0, 0⟩, ⟨10, 0⟩, ⟨10, 10⟩, ⟨0, 10⟩] })
      100 100 = false ∧
    isPointInFocusArea (barcodeCenter
        { rawValue := "center",
          cornerPoints := [⟨40, 40⟩, ⟨60, 40⟩, ⟨60, 60⟩, ⟨40, 60⟩] })
      100 100 = true ∧
    nativeStep (.detects
        [{ rawValue := "left",
           cornerPoints := [⟨0, 0⟩, ⟨10, 0⟩, ⟨10, 10⟩, ⟨0, 10⟩] },
         { rawValue := "center",
           cornerPoints := [⟨40, 40⟩, ⟨60, 40⟩, ⟨60, 60⟩, ⟨40, 60⟩] }])
      100 100 = none :=
  ⟨by with_unfolding_all decide, by with_unfolding_all decide,
   native_first_barcode_only.2 _ _ 100 100 (by with_unfolding_all decide)⟩

end QRScan
